import Mathlib

/-!
Shallow embedding of the todo-agent backend.

The embedded code is `backend/app/mcp/tools.py` (the five task tools and the
`execute_tool` dispatcher) and `backend/app/agent/todo_agent.py` (the
quote-stripper, the fast-path matcher and the `run_agent` orchestration loop).

Modelling conventions:
* The SQL task table is a `Store`: a list of `Task` rows in insertion order,
  an autoincrement counter for primary keys, and a logical clock standing in
  for `datetime.utcnow()` (each commit that stamps a time advances it).
* Python dict results are a small JSON-like value type `JVal`; every tool
  returns the literal dict built in the source.
* A Python function call with keyword binding can raise `TypeError`
  (duplicate keyword, unexpected keyword, missing required argument); these
  raises are `Except.error`.  Python does not check annotation types at call
  time, but every argument the claims exercise is well-typed, so a JSON value
  of the wrong shape for a parameter is also mapped to the error case.
* The LLM is an oracle `Nat → ModelResponse` giving the reply of the provider to
  the n-th `chat.completions.create` call of the run; `json.loads` of a tool
  raw argument string of a call is abstracted as `Option` (`none` = the string
  is malformed and `json.loads` raises `JSONDecodeError`).
-/

namespace TodoApp

/-- ASCII whitespace stripped by the Python function `str.strip()` (and matched by the
regex class `\s`). -/
def pyIsSpace (c : Char) : Bool :=
  c = ' ' || c = '\t' || c = '\n' || c = '\r' || c = '\x0b' || c = '\x0c'

/-- Python `str.strip()` on the character list of an ASCII string. -/
def pyStrip (s : List Char) : List Char :=
  ((s.dropWhile pyIsSpace).reverse.dropWhile pyIsSpace).reverse

/-- Python `str.lower()` (ASCII fragment). -/
def pyLower (s : List Char) : List Char :=
  s.map Char.toLower

/-- The single-quote character, `chr 39`. -/
def squote : Char := Char.ofNat 39

/-- The double-quote character, `chr 34`. -/
def dquote : Char := Char.ofNat 34

/-- JSON-like values: the shape of the Python dicts/lists the tools return
and of the decoded tool-call arguments. -/
inductive JVal where
  | str : String → JVal
  | nat : Nat → JVal
  | bool : Bool → JVal
  | null : JVal
  | arr : List JVal → JVal
  | obj : List (String × JVal) → JVal
deriving Repr

/-- A row of the `tasks` table (`backend/app/models/task.py`).  Timestamps
are values of the logical clock. -/
structure Task where
  id : Nat
  user_id : String
  title : String
  description : Option String
  completed : Bool
  created_at : Nat
  updated_at : Nat
deriving Repr, DecidableEq

/-- The task store: rows in insertion order, the autoincrement primary-key
counter, and the logical clock for `datetime.utcnow()`. -/
structure Store where
  tasks : List Task
  nextId : Nat
  now : Nat
deriving Repr, DecidableEq

/-- The empty database. -/
def emptyStore : Store := ⟨[], 1, 0⟩

/-- Python `datetime.isoformat()` on the logical clock (any injective rendering). -/
def isoformat (t : Nat) : String := toString t

/-- Embeds `add_task` (tools.py): unconditionally inserts a row and returns
`{"task_id": id, "status": "created", "title": title}`. -/
def add_task (s : Store) (user_id : String) (title : String)
    (description : Option String) : Store × JVal :=
  let task : Task :=
    { id := s.nextId, user_id := user_id, title := title,
      description := description, completed := false,
      created_at := s.now, updated_at := s.now }
  (⟨s.tasks ++ [task], s.nextId + 1, s.now + 1⟩,
   .obj [("task_id", .nat task.id), ("status", .str "created"),
         ("title", .str task.title)])

/-- Does a task match the `list_tasks` status filter?  Any status other than
`"pending"`/`"completed"` falls through both `if` branches in the source and
filters nothing. -/
def matchesStatus (status : String) (t : Task) : Bool :=
  if status = "pending" then t.completed = false
  else if status = "completed" then t.completed = true
  else true

/-- The sort `ORDER BY created_at DESC`: insertion sort, most recent first (stable on
equal timestamps). -/
def insertDesc (t : Task) : List Task → List Task
  | [] => [t]
  | u :: us => if t.created_at ≤ u.created_at then u :: insertDesc t us
               else t :: u :: us

/-- Sort rows by `created_at` descending. -/
def sortByCreatedDesc : List Task → List Task
  | [] => []
  | t :: ts => insertDesc t (sortByCreatedDesc ts)

/-- The rows `list_tasks` selects: the rows of the owner matching the filter,
ordered most-recently-created first. -/
def list_tasksRows (s : Store) (user_id : String) (status : String) : List Task :=
  sortByCreatedDesc
    (s.tasks.filter (fun t => t.user_id = user_id && matchesStatus status t))

/-- The dict `list_tasks` builds for one row. -/
def taskSummary (t : Task) : JVal :=
  .obj [("id", .nat t.id), ("title", .str t.title),
        ("description", match t.description with
                        | some d => .str d
                        | none => .null),
        ("completed", .bool t.completed),
        ("created_at", .str (isoformat t.created_at))]

/-- Embeds `list_tasks` (tools.py): select the rows of the owner, filter by status,
order by creation time descending, render each row as a dict. -/
def list_tasks (s : Store) (user_id : String) (status : String) : JVal :=
  .arr ((list_tasksRows s user_id status).map taskSummary)

/-- The not-found dict shared by complete/delete/update. -/
def notFoundResult (task_id : Nat) : JVal :=
  .obj [("task_id", .nat task_id), ("status", .str "error"),
        ("error", .str "Task not found")]

/-- The lookup `select(Task).where(Task.id == task_id, Task.user_id == user_id).first()`. -/
def findTask (s : Store) (user_id : String) (task_id : Nat) : Option Task :=
  s.tasks.find? (fun t => t.id = task_id && t.user_id = user_id)

/-- Replace the first row matching the predicate (the ORM mutates the row
object returned by `.first()` in place). -/
def replaceFirst (p : Task → Bool) (f : Task → Task) : List Task → List Task
  | [] => []
  | t :: ts => if p t then f t :: ts else t :: replaceFirst p f ts

/-- Delete the first row matching the predicate (`session.delete(task)`). -/
def eraseFirst (p : Task → Bool) : List Task → List Task
  | [] => []
  | t :: ts => if p t then ts else t :: eraseFirst p ts

/-- Embeds `complete_task` (tools.py): owner-scoped lookup; not-found dict when the
lookup misses, else set `completed`, stamp `updated_at`, return the
completed dict. -/
def complete_task (s : Store) (user_id : String) (task_id : Nat) : Store × JVal :=
  match findTask s user_id task_id with
  | none => (s, notFoundResult task_id)
  | some task =>
    let task' := { task with completed := true, updated_at := s.now }
    (⟨replaceFirst (fun t => t.id = task_id && t.user_id = user_id)
        (fun _ => task') s.tasks, s.nextId, s.now + 1⟩,
     .obj [("task_id", .nat task'.id), ("status", .str "completed"),
           ("title", .str task'.title)])

/-- Embeds `delete_task` (tools.py). -/
def delete_task (s : Store) (user_id : String) (task_id : Nat) : Store × JVal :=
  match findTask s user_id task_id with
  | none => (s, notFoundResult task_id)
  | some task =>
    (⟨eraseFirst (fun t => t.id = task_id && t.user_id = user_id) s.tasks,
      s.nextId, s.now⟩,
     .obj [("task_id", .nat task_id), ("status", .str "deleted"),
           ("title", .str task.title)])

/-- Embeds `update_task` (tools.py): owner-scoped lookup; assign `title` and
`description` only when supplied, always stamp `updated_at`. -/
def update_task (s : Store) (user_id : String) (task_id : Nat)
    (title : Option String) (description : Option String) : Store × JVal :=
  match findTask s user_id task_id with
  | none => (s, notFoundResult task_id)
  | some task =>
    let task' :=
      { task with
        title := match title with | some t => t | none => task.title,
        description := match description with
                       | some d => some d
                       | none => task.description,
        updated_at := s.now }
    (⟨replaceFirst (fun t => t.id = task_id && t.user_id = user_id)
        (fun _ => task') s.tasks, s.nextId, s.now + 1⟩,
     .obj [("task_id", .nat task'.id), ("status", .str "updated"),
           ("title", .str task'.title)])

/-! ### `execute_tool`: dispatch with Python keyword binding

`execute_tool` calls `tools[tool_name](session=session, user_id=user_id,
**arguments)`.  Call binding raises `TypeError` when `arguments` reuses an
explicitly-passed keyword (`session`/`user_id`), names a keyword the callee
does not accept, or omits a required parameter. -/

/-- Names of the five registered tools (the keys of `tools` in
`execute_tool`). -/
def knownTools : List String :=
  ["add_task", "list_tasks", "complete_task", "delete_task", "update_task"]

/-- The keys of a decoded argument mapping. -/
def argKeys (arguments : List (String × JVal)) : List String :=
  arguments.map Prod.fst

/-- Keyword-binding check for `f(session=..., user_id=..., **arguments)`
where `f` accepts keywords `session`, `user_id` and `allowed`, with
`required ⊆ allowed` mandatory.  Returns the `TypeError` message, if any. -/
def bindError (arguments : List (String × JVal)) (allowed required : List String) :
    Option String :=
  if "session" ∈ argKeys arguments || "user_id" ∈ argKeys arguments then
    some "TypeError: got multiple values for a keyword argument"
  else if (argKeys arguments).any (fun k => k ∉ allowed) then
    some "TypeError: got an unexpected keyword argument"
  else if required.any (fun k => k ∉ argKeys arguments) then
    some "TypeError: missing a required argument"
  else none

/-- Fetch a string-valued argument. -/
def getStr (arguments : List (String × JVal)) (key : String) : Option String :=
  match arguments.lookup key with
  | some (.str v) => some v
  | _ => none

/-- Fetch an integer-valued argument. -/
def getNat (arguments : List (String × JVal)) (key : String) : Option Nat :=
  match arguments.lookup key with
  | some (.nat v) => some v
  | _ => none

/-- Embeds `execute_tool` (tools.py): unknown names yield a structured error dict;
known names are called with the `user_id` of the session plus the decoded
arguments as keywords, so binding can raise (`Except.error`). -/
def execute_tool (s : Store) (user_id : String) (tool_name : String)
    (arguments : List (String × JVal)) : Except String (Store × JVal) :=
  if tool_name ∉ knownTools then
    .ok (s, .obj [("error", .str ("Unknown tool: " ++ tool_name))])
  else if tool_name = "add_task" then
    match bindError arguments ["title", "description"] ["title"] with
    | some e => .error e
    | none =>
      match getStr arguments "title" with
      | none => .error "TypeError: argument does not have its annotated type"
      | some title =>
        match arguments.lookup "description" with
        | some (.str d) => .ok (add_task s user_id title (some d))
        | none => .ok (add_task s user_id title none)
        | some _ => .error "TypeError: argument does not have its annotated type"
  else if tool_name = "list_tasks" then
    match bindError arguments ["status"] [] with
    | some e => .error e
    | none =>
      match arguments.lookup "status" with
      | some (.str st) => .ok (s, list_tasks s user_id st)
      | none => .ok (s, list_tasks s user_id "all")
      | some _ => .error "TypeError: argument does not have its annotated type"
  else if tool_name = "complete_task" then
    match bindError arguments ["task_id"] ["task_id"] with
    | some e => .error e
    | none =>
      match getNat arguments "task_id" with
      | none => .error "TypeError: argument does not have its annotated type"
      | some task_id => .ok (complete_task s user_id task_id)
  else if tool_name = "delete_task" then
    match bindError arguments ["task_id"] ["task_id"] with
    | some e => .error e
    | none =>
      match getNat arguments "task_id" with
      | none => .error "TypeError: argument does not have its annotated type"
      | some task_id => .ok (delete_task s user_id task_id)
  else
    match bindError arguments ["task_id", "title", "description"] ["task_id"] with
    | some e => .error e
    | none =>
      match getNat arguments "task_id" with
      | none => .error "TypeError: argument does not have its annotated type"
      | some task_id =>
        match arguments.lookup "title", arguments.lookup "description" with
        | some (.str t), some (.str d) =>
          .ok (update_task s user_id task_id (some t) (some d))
        | some (.str t), none => .ok (update_task s user_id task_id (some t) none)
        | none, some (.str d) => .ok (update_task s user_id task_id none (some d))
        | none, none => .ok (update_task s user_id task_id none none)
        | _, _ => .error "TypeError: argument does not have its annotated type"

/-! ### The fast-path regular expressions

A small backtracking engine with Python `re` semantics for the fragment the
matcher uses: case-insensitive literals, greedy `+` over the classes `\s`,
`\d` and `.` (no-newline), `(?:...)?`, alternation, capture groups and `$`.
The subject strings are pre-stripped, so `$` is end of input. -/

/-- Character classes used by the patterns. -/
inductive CharCls where
  | ws | digit | anyNoNL
deriving Repr, DecidableEq

/-- Membership in a class (`\s`, `\d`, `.` without DOTALL). -/
def CharCls.test : CharCls → Char → Bool
  | .ws => pyIsSpace
  | .digit => Char.isDigit
  | .anyNoNL => fun c => c != '\n'

/-- Regex fragment.  Literals are stored lowercase; matching lowers the
subject character, which is `re.IGNORECASE` on ASCII. -/
inductive RE where
  | lit : List Char → RE
  | plus : CharCls → RE
  | seq : RE → RE → RE
  | alt : RE → RE → RE
  | opt : RE → RE
  | grp : Nat → RE → RE
  | eos : RE
deriving Repr

/-- Captured groups: group number paired with matched text, most recent
first. -/
abbrev Caps := List (Nat × List Char)

/-- Consume a case-insensitive literal prefix. -/
def dropLit : List Char → List Char → Option (List Char)
  | [], s => some s
  | _ :: _, [] => none
  | p :: ps, c :: cs => if c.toLower = p then dropLit ps cs else none

/-- Greedy `cls+`: try consuming `n` characters first, then backtrack to
shorter lengths (still ≥ 1). -/
def tryPlus (s : List Char) (caps : Caps)
    (k : List Char → Caps → Option Caps) : Nat → Option Caps
  | 0 => none
  | n + 1 => (k (s.drop (n + 1)) caps).orElse (fun _ => tryPlus s caps k n)

/-- Backtracking matcher in continuation-passing style: `matchRE r s caps k`
tries every way `r` can consume a prefix of `s`, longest/leftmost
alternatives first, calling `k` on the remainder. -/
def matchRE : RE → List Char → Caps → (List Char → Caps → Option Caps) → Option Caps
  | .lit p, s, caps, k =>
    match dropLit p s with
    | some rest => k rest caps
    | none => none
  | .plus cls, s, caps, k => tryPlus s caps k ((s.takeWhile cls.test).length)
  | .seq a b, s, caps, k =>
    matchRE a s caps (fun s' caps' => matchRE b s' caps' k)
  | .alt a b, s, caps, k =>
    (matchRE a s caps k).orElse (fun _ => matchRE b s caps k)
  | .opt a, s, caps, k =>
    (matchRE a s caps k).orElse (fun _ => k s caps)
  | .grp n a, s, caps, k =>
    matchRE a s caps
      (fun s' caps' => k s' ((n, s.take (s.length - s'.length)) :: caps'))
  | .eos, s, caps, k => if s.isEmpty then k s caps else none

/-- Python `re.match`: anchored at the start, trailing input allowed. -/
def reMatch (r : RE) (s : List Char) : Option Caps :=
  matchRE r s [] (fun _ caps => some caps)

/-- Python `re.search`: try each start position left to right. -/
def reSearch (r : RE) : List Char → Option Caps
  | [] => reMatch r []
  | c :: cs => (reMatch r (c :: cs)).orElse (fun _ => reSearch r cs)

/-- Sequence a list of fragments. -/
def reSeq (rs : List RE) : RE :=
  rs.foldr .seq .eos

/-- The pattern `^(?:add|create)\s+(?:a\s+)?task(?:\s+to)?\s+(.+)$` (IGNORECASE). -/
def addTaskRE : RE :=
  reSeq [.alt (.lit "add".toList) (.lit "create".toList), .plus .ws,
         .opt (.seq (.lit "a".toList) (.plus .ws)), .lit "task".toList,
         .opt (.seq (.plus .ws) (.lit "to".toList)), .plus .ws,
         .grp 1 (.plus .anyNoNL)]

/-- The pattern `^remember\s+to\s+(.+)$` (IGNORECASE). -/
def rememberRE : RE :=
  reSeq [.lit "remember".toList, .plus .ws, .lit "to".toList, .plus .ws,
         .grp 1 (.plus .anyNoNL)]

/-- The pattern `(?:complete|finish|mark)\s+task\s+(\d+)(?:\s+as\s+(?:done|complete))?`,
searched in the lowercased text. -/
def completeTaskRE : RE :=
  .seq (.alt (.lit "complete".toList)
          (.alt (.lit "finish".toList) (.lit "mark".toList)))
    (.seq (.plus .ws)
      (.seq (.lit "task".toList)
        (.seq (.plus .ws)
          (.seq (.grp 1 (.plus .digit))
            (.opt (.seq (.plus .ws)
              (.seq (.lit "as".toList)
                (.seq (.plus .ws)
                  (.alt (.lit "done".toList) (.lit "complete".toList))))))))))

/-- The pattern `(?:delete|remove)\s+task\s+(\d+)`, searched in the lowercased text. -/
def deleteTaskRE : RE :=
  .seq (.alt (.lit "delete".toList) (.lit "remove".toList))
    (.seq (.plus .ws)
      (.seq (.lit "task".toList)
        (.seq (.plus .ws) (.grp 1 (.plus .digit)))))

/-- The pattern `(?:change|update|rename)\s+task\s+(\d+)\s+(?:to|as)\s+(.+)$`
(IGNORECASE, searched). -/
def updateTaskRE : RE :=
  .seq (.alt (.lit "change".toList)
          (.alt (.lit "update".toList) (.lit "rename".toList)))
    (.seq (.plus .ws)
      (.seq (.lit "task".toList)
        (.seq (.plus .ws)
          (.seq (.grp 1 (.plus .digit))
            (.seq (.plus .ws)
              (.seq (.alt (.lit "to".toList) (.lit "as".toList))
                (.seq (.plus .ws)
                  (.seq (.grp 2 (.plus .anyNoNL)) .eos))))))))

/-- Python `int(...)` on a captured digit string. -/
def natOfDigits (s : List Char) : Nat :=
  s.foldl (fun n c => n * 10 + (c.toNat - '0'.toNat)) 0

/-- A single-quote as a one-character string (apostrophes in the canned
texts are spliced in through this). -/
def sq : String := String.mk [squote]

/-- Embeds `_strip_wrapping_quotes` on a character list: strip whitespace; when the
result has length ≥ 2, identical first and last characters, and that
character is a quote, drop both and strip again. -/
def stripWrappingQuotesL (value : List Char) : List Char :=
  let v := pyStrip value
  match v with
  | [] => v
  | c :: rest =>
    if (c == squote || c == dquote) && !rest.isEmpty
        && rest.getLast? == some c then
      pyStrip rest.dropLast
    else v

/-- Embeds `_strip_wrapping_quotes` (todo_agent.py). -/
def stripWrappingQuotes (value : String) : String :=
  String.mk (stripWrappingQuotesL value.toList)

/-- One persisted conversation message, reduced to the fields the agent
reads. -/
structure Msg where
  role : String
  content : String
deriving Repr, DecidableEq

/-- One audit-trail entry: `{"name": ..., "arguments": ..., "result": ...}`. -/
structure AuditEntry where
  name : String
  arguments : List (String × JVal)
  result : JVal
deriving Repr

/-- Python `dict.get` on an object value. -/
def jGet (v : JVal) (key : String) : Option JVal :=
  match v with
  | .obj kvs => kvs.lookup key
  | _ => none

/-- Python `str(...)` of the scalar values the formatter interpolates (objects and
arrays are never interpolated by the embedded code). -/
def pyStr : JVal → String
  | .str s => s
  | .nat n => toString n
  | .bool b => if b then "True" else "False"
  | .null => "None"
  | .arr _ => "\x7barray\x7d"
  | .obj _ => "\x7bobject\x7d"

/-- Interpolate a `dict.get` result (`None` when the key is absent). -/
def pyStrOpt (v : Option JVal) : String :=
  pyStr (v.getD .null)

/-- Python truthiness of a `dict.get` result. -/
def jTruthy : Option JVal → Bool
  | none => false
  | some .null => false
  | some (.bool b) => b
  | some (.nat n) => n != 0
  | some (.str s) => !s.isEmpty
  | some (.arr xs) => !xs.isEmpty
  | some (.obj kvs) => !kvs.isEmpty

/-- Is `result.get("status")` the given string? -/
def statusIs (result : JVal) (status : String) : Bool :=
  match jGet result "status" with
  | some (.str st) => st = status
  | _ => false

/-- The fallback `result.get("error", "Task not found.")` interpolated. -/
def errorTextOf (result : JVal) : String :=
  match jGet result "error" with
  | some v => pyStr v
  | none => "Task not found."

/-- One `"Todo/Done #id: title"` line of the fast-path listing. -/
def renderItemLine (item : JVal) : String :=
  let mark := if jTruthy (jGet item "completed") then "Done" else "Todo"
  let idStr := pyStrOpt (jGet item "id")
  let titleStr := pyStrOpt (jGet item "title")
  s!"{mark} #{idStr}: {titleStr}"

/-- The fast-path sentence for an empty listing. -/
def noTasksText : String := "You don" ++ sq ++ "t have any matching tasks yet."

/-- The fast-path response for a `list_tasks` result: empty-list sentence,
or up to 10 rendered lines plus a truncation note. -/
def listResponseText (items : List JVal) : String :=
  if items.isEmpty then noTasksText
  else
    let lines := (items.take 10).map renderItemLine
    let lines :=
      if items.length > 10 then
        let extra := items.length - 10
        lines ++ [s!"...and {extra} more."]
      else lines
    "Here are your tasks:\n" ++ String.intercalate "\n" lines

/-- The successful outcome of the fast path: response text, audit trail,
resulting store. -/
structure FPOut where
  text : String
  audit : List AuditEntry
  store : Store
deriving Repr

/-- The `run_tool` closure of `_fast_path_command`: execute through
`execute_tool`, then render the default response text for the tool. -/
def runToolFast (s : Store) (user_id : String) (tool_name : String)
    (arguments : List (String × JVal)) : Except String FPOut :=
  match execute_tool s user_id tool_name arguments with
  | .error e => .error e
  | .ok (s', result) =>
    let response_text :=
      if tool_name = "add_task" then
        let t := pyStr ((jGet result "title").getD
          ((arguments.lookup "title").getD (.str "Untitled")))
        s!"Added task: {t}."
      else if tool_name = "list_tasks" then
        let items := match result with | .arr xs => xs | _ => []
        listResponseText items
      else if tool_name = "complete_task" then
        if statusIs result "completed" then
          let i := pyStrOpt (jGet result "task_id")
          let t := pyStrOpt (jGet result "title")
          s!"Completed task #{i}: {t}."
        else errorTextOf result
      else if tool_name = "delete_task" then
        if statusIs result "deleted" then
          let i := pyStrOpt (jGet result "task_id")
          let t := pyStrOpt (jGet result "title")
          s!"Deleted task #{i}: {t}."
        else errorTextOf result
      else if tool_name = "update_task" then
        if statusIs result "updated" then
          let i := pyStrOpt (jGet result "task_id")
          let t := pyStrOpt (jGet result "title")
          s!"Updated task #{i}: {t}."
        else errorTextOf result
      else "Done."
    .ok ⟨response_text, [⟨tool_name, arguments, result⟩], s'⟩

/-- The listing phrase containing an apostrophe, built without a quote literal. -/
def whatsPending : List Char := "what".toList ++ [squote] ++ "s pending".toList

/-- Is `p` a prefix of the second list? -/
def startsWithL : List Char → List Char → Bool
  | [], _ => true
  | _ :: _, [] => false
  | p :: ps, c :: cs => p == c && startsWithL ps cs

/-- the Python substring test `needle in hay`. -/
def containsSub (needle : List Char) : List Char → Bool
  | [] => startsWithL needle []
  | c :: cs => startsWithL needle (c :: cs) || containsSub needle cs

/-- Stages of `_fast_path_command` after the add/create/remember patterns
(reached either because they did not match or because the stripped title was
empty). -/
def fpAfterAdd (user_id : String) (text lower : List Char) (s : Store) :
    Except String (Option FPOut) :=
  if containsSub whatsPending lower
      || containsSub "what is pending".toList lower
      || containsSub "pending tasks".toList lower then
    (runToolFast s user_id "list_tasks" [("status", .str "pending")]).map some
  else if containsSub "completed tasks".toList lower
      || containsSub "done tasks".toList lower
      || containsSub "finished tasks".toList lower then
    (runToolFast s user_id "list_tasks" [("status", .str "completed")]).map some
  else if ((containsSub "task".toList lower || containsSub "todo".toList lower)
        && (containsSub "list".toList lower || containsSub "show".toList lower
            || containsSub "what".toList lower
            || containsSub "display".toList lower))
      || lower == "tasks".toList || lower == "todos".toList
      || lower == "show tasks".toList || lower == "list tasks".toList then
    let status :=
      if containsSub "pending".toList lower then "pending"
      else if containsSub "completed".toList lower
          || containsSub "done".toList lower
          || containsSub "finished".toList lower then "completed"
      else "all"
    (runToolFast s user_id "list_tasks" [("status", .str status)]).map some
  else
    match reSearch completeTaskRE lower with
    | some caps =>
      (runToolFast s user_id "complete_task"
        [("task_id", .nat (natOfDigits ((caps.lookup 1).getD [])))]).map some
    | none =>
      match reSearch deleteTaskRE lower with
      | some caps =>
        (runToolFast s user_id "delete_task"
          [("task_id", .nat (natOfDigits ((caps.lookup 1).getD [])))]).map some
      | none =>
        match reSearch updateTaskRE text with
        | some caps =>
          let task_id := natOfDigits ((caps.lookup 1).getD [])
          let title := stripWrappingQuotesL ((caps.lookup 2).getD [])
          if !title.isEmpty then
            (runToolFast s user_id "update_task"
              [("task_id", .nat task_id),
               ("title", .str (String.mk title))]).map some
          else .ok none
        | none => .ok none

/-- Embeds `_fast_path_command` (todo_agent.py): latest user message, strip,
lowercase, then the pattern cascade.  `none` means the matcher declined and
the caller falls through to the LLM loop. -/
def fastPathCommand (user_id : String) (messages : List Msg) (s : Store) :
    Except String (Option FPOut) :=
  match messages.reverse.find? (fun m => m.role == "user") with
  | none => .ok none
  | some latest_user =>
    let text := pyStrip latest_user.content.toList
    if text.isEmpty then .ok none
    else
      let lower := pyStrip (pyLower text)
      match (reMatch addTaskRE text).orElse (fun _ => reMatch rememberRE text) with
      | some caps =>
        let title := stripWrappingQuotesL ((caps.lookup 1).getD [])
        if !title.isEmpty then
          (runToolFast s user_id "add_task"
            [("title", .str (String.mk title))]).map some
        else fpAfterAdd user_id text lower s
      | none => fpAfterAdd user_id text lower s

/-! ### `run_agent`: the LLM orchestration loop -/

/-- One tool invocation requested by the model.  `argumentsRaw` abstracts the
raw JSON argument string: `none` when `json.loads` would raise
`JSONDecodeError`, `some m` for the decoded mapping. -/
structure ToolCallReq where
  id : String
  name : String
  argumentsRaw : Option (List (String × JVal))
deriving Repr

/-- One reply from `chat.completions.create`: optional text content plus the
(possibly empty) list of requested tool calls. -/
structure ModelResponse where
  content : Option String
  tool_calls : List ToolCallReq
deriving Repr

/-- An entry of the `openai_messages` list sent to the provider. -/
inductive OMsg where
  | system (content : String)
  | plain (role : String) (content : String)
  | assistantCalls (content : Option String) (calls : List ToolCallReq)
  | toolMsg (tool_call_id : String) (content : JVal)
deriving Repr

/-- The system prompt (todo_agent.py). -/
def SYSTEM_PROMPT : String :=
  "You manage todo tasks with tools.\nUse tools for add/list/complete/delete/update actions.\nBe concise and friendly.\nIf the user is ambiguous, ask a clarifying question.\nIf a task is not found, say so clearly."

/-- History bound sent to the provider. -/
def MAX_CONTEXT_MESSAGES : Nat := 12

/-- Hard ceiling on rounds of model consultation. -/
def MAX_TOOL_ITERATIONS : Nat := 4

/-- Embeds `_recent_openai_messages`: the system prompt followed by the last 12
messages in order, reduced to role and content. -/
def recentOpenaiMessages (messages : List Msg) : List OMsg :=
  let recent := messages.drop (messages.length - MAX_CONTEXT_MESSAGES)
  OMsg.system SYSTEM_PROMPT :: recent.map (fun m => OMsg.plain m.role m.content)

/-- The fallback answer when the model returns no text. -/
def notSureText : String := "I" ++ sq ++ "m not sure how to help with that."

/-- The soft answer returned when the iteration ceiling is reached. -/
def maxIterationsText : String :=
  "I" ++ sq ++ "ve completed the requested operations. Is there anything else you"
    ++ sq ++ "d like me to do?"

/-- The outcome of one orchestration run.  `rounds` instruments the number
of `chat.completions.create` calls made (0 on the fast path). -/
structure RunResult where
  text : String
  audit : List AuditEntry
  store : Store
  rounds : Nat
deriving Repr

/-- Serial execution of the tool calls requested in one round: decode arguments
(empty mapping on `JSONDecodeError`), execute, append one audit entry and
one tool-result message per call.  An exception from `execute_tool`
propagates. -/
def execCalls (user_id : String) (calls : List ToolCallReq) (s : Store)
    (audit : List AuditEntry) (msgs : List OMsg) :
    Except String (Store × List AuditEntry × List OMsg) :=
  match calls with
  | [] => .ok (s, audit, msgs)
  | tc :: rest =>
    let arguments := tc.argumentsRaw.getD []
    match execute_tool s user_id tc.name arguments with
    | .error e => .error e
    | .ok (s', result) =>
      execCalls user_id rest s' (audit ++ [⟨tc.name, arguments, result⟩])
        (msgs ++ [OMsg.toolMsg tc.id result])

/-- The `for _ in range(MAX_TOOL_ITERATIONS)` loop of `run_agent`.  `fuel`
is the number of remaining iterations, `round` the number of consultations
already made (the oracle index). -/
def agentLoop (user_id : String) (oracle : Nat → ModelResponse) :
    Nat → Nat → List OMsg → List AuditEntry → Store → Except String RunResult
  | 0, round, _, audit, s => .ok ⟨maxIterationsText, audit, s, round⟩
  | fuel + 1, round, msgs, audit, s =>
    let resp := oracle round
    if resp.tool_calls.isEmpty then
      let c := resp.content.getD ""
      .ok ⟨if c.isEmpty then notSureText else c, audit, s, round + 1⟩
    else
      let msgs' := msgs ++ [OMsg.assistantCalls resp.content resp.tool_calls]
      match execCalls user_id resp.tool_calls s audit msgs' with
      | .error e => .error e
      | .ok (s', audit', msgs'') =>
        agentLoop user_id oracle fuel (round + 1) msgs'' audit' s'

/-- Embeds `run_agent` (todo_agent.py): try the fast path, else run the bounded
loop over the trimmed history. -/
def runAgent (user_id : String) (messages : List Msg) (s : Store)
    (oracle : Nat → ModelResponse) : Except String RunResult :=
  match fastPathCommand user_id messages s with
  | .error e => .error e
  | .ok (some out) => .ok ⟨out.text, out.audit, out.store, 0⟩
  | .ok none =>
    agentLoop user_id oracle MAX_TOOL_ITERATIONS 0
      (recentOpenaiMessages messages) [] s

/-! ### Spec-side definitions used by the theorem statements -/

/-- Is the (already stripped) value wrapped in a matching pair of identical
quote characters?  This is the guard condition of `_strip_wrapping_quotes`. -/
def quoteWrapped : List Char → Bool
  | [] => false
  | c :: rest => (c == squote || c == dquote) && !rest.isEmpty
      && rest.getLast? == some c

/-- The text buy milk wrapped in single quotes. -/
def singleQuotedMilk : String := sq ++ "buy milk" ++ sq

/-- The letter x wrapped in two layers of single quotes. -/
def nestedQuoted : String := sq ++ sq ++ "x" ++ sq ++ sq

/-- The `(name, decoded arguments)` pairs of every tool call the oracle
requests in the first `n` rounds, in request order. -/
def flatRequests (oracle : Nat → ModelResponse) (n : Nat) :
    List (String × List (String × JVal)) :=
  (List.range n).flatMap
    (fun i => (oracle i).tool_calls.map
      (fun tc => (tc.name, tc.argumentsRaw.getD [])))

/-- An oracle that requests one well-formed `list_tasks` call every round. -/
def oracleAlwaysCalls : Nat → ModelResponse :=
  fun _ => ⟨none, [⟨"call0", "list_tasks", some []⟩]⟩

/-- An oracle whose first-round tool call is `add_task` with arguments that
fail to parse as JSON. -/
def oracleMalformedAdd : Nat → ModelResponse :=
  fun _ => ⟨none, [⟨"call0", "add_task", none⟩]⟩

/-- A history whose only message matches no fast-path pattern. -/
def helloHistory : List Msg := [⟨"user", "hello"⟩]

/-- A two-owner store: task 1 belongs to alice, task 2 to bob. -/
def twoOwnerStore : Store :=
  ⟨[⟨1, "alice", "write report", none, false, 0, 0⟩,
    ⟨2, "bob", "buy milk", some "2 liters", false, 1, 1⟩], 3, 2⟩

/-- A store holding twelve pending tasks for owner `u`. -/
def twelveTaskStore : Store :=
  ⟨(List.range 12).map
     (fun i => ⟨i + 1, "u", "task" ++ toString (i + 1), none, false, i, i⟩),
   13, 12⟩

/-- An oracle that agrees with `oracleAlwaysCalls` on the first
`MAX_TOOL_ITERATIONS` rounds and differs afterwards. -/
def oracleDivergentLate : Nat → ModelResponse :=
  fun i => if i < MAX_TOOL_ITERATIONS then oracleAlwaysCalls i
           else ⟨some "late reply", []⟩

/-- The audit trail of a four-round run of `oracleAlwaysCalls` on the empty
store. -/
def fourListCallsAudit : List AuditEntry :=
  [⟨"list_tasks", [], .arr []⟩, ⟨"list_tasks", [], .arr []⟩,
   ⟨"list_tasks", [], .arr []⟩, ⟨"list_tasks", [], .arr []⟩]

/-! ### Lemmas about `pyStrip` and `_strip_wrapping_quotes` -/

theorem dropWhile_head_false {p : Char → Bool} :
    ∀ (l : List Char) (c : Char), (l.dropWhile p).head? = some c → p c = false := by
  intro l
  induction l with
  | nil => intro c h; simp at h
  | cons a l ih =>
    intro c h
    rw [List.dropWhile_cons] at h
    by_cases ha : p a = true
    · exact ih c (by simpa [ha] using h)
    · rw [if_neg ha] at h
      simp at h
      rw [← h]
      simpa using ha

theorem dropWhile_getLast? {p : Char → Bool} :
    ∀ (l : List Char), l.dropWhile p ≠ [] → (l.dropWhile p).getLast? = l.getLast? := by
  intro l
  induction l with
  | nil => intro h; simp at h
  | cons a l ih =>
    intro h
    rw [List.dropWhile_cons] at h ⊢
    by_cases ha : p a
    · simp only [ha, if_true] at h ⊢
      have hl : l ≠ [] := by
        rintro rfl; simp at h
      rw [ih h]
      cases l with
      | nil => exact absurd rfl hl
      | cons b bs => exact (List.getLast?_cons_cons ..).symm
    · simp [ha]

theorem head_not_space_of_pyStrip (l : List Char) (c : Char)
    (h : (pyStrip l).head? = some c) : pyIsSpace c = false := by
  unfold pyStrip at h
  rw [List.head?_reverse] at h
  by_cases hB : ((l.dropWhile pyIsSpace).reverse.dropWhile pyIsSpace) = []
  · rw [hB] at h; simp at h
  · rw [dropWhile_getLast? _ hB, List.getLast?_reverse] at h
    exact dropWhile_head_false _ _ h

theorem getLast_not_space_of_pyStrip (l : List Char) (c : Char)
    (h : (pyStrip l).getLast? = some c) : pyIsSpace c = false := by
  unfold pyStrip at h
  rw [List.getLast?_reverse] at h
  exact dropWhile_head_false _ _ h

theorem dropWhile_eq_self_of_head {p : Char → Bool} (l : List Char)
    (h : ∀ c, l.head? = some c → p c = false) : l.dropWhile p = l := by
  cases l with
  | nil => rfl
  | cons a l => rw [List.dropWhile_cons, h a rfl]; simp

theorem pyStrip_idem (l : List Char) : pyStrip (pyStrip l) = pyStrip l := by
  have h1 : (pyStrip l).dropWhile pyIsSpace = pyStrip l :=
    dropWhile_eq_self_of_head _ (head_not_space_of_pyStrip l)
  have h2 : (pyStrip l).reverse.dropWhile pyIsSpace = (pyStrip l).reverse := by
    refine dropWhile_eq_self_of_head _ ?_
    intro c hc
    rw [List.head?_reverse] at hc
    exact getLast_not_space_of_pyStrip l c hc
  show (((pyStrip l).dropWhile pyIsSpace).reverse.dropWhile pyIsSpace).reverse
      = pyStrip l
  rw [h1, h2, List.reverse_reverse]

theorem stripWrappingQuotesL_eq_pyStrip (v : List Char) :
    ∃ w, stripWrappingQuotesL v = pyStrip w := by
  rcases h : pyStrip v with _ | ⟨c, rest⟩
  · exact ⟨v, by simp only [stripWrappingQuotesL, h]⟩
  · by_cases hc : ((c == squote || c == dquote) && !rest.isEmpty
        && rest.getLast? == some c) = true
    · exact ⟨rest.dropLast, by simp only [stripWrappingQuotesL, h, hc]; simp⟩
    · refine ⟨v, ?_⟩
      simp only [stripWrappingQuotesL, h]
      rw [if_neg hc, ← h]

theorem stripWrappingQuotesL_of_not_wrapped (v : List Char)
    (h : quoteWrapped (pyStrip v) = false) :
    stripWrappingQuotesL v = pyStrip v := by
  rcases hv : pyStrip v with _ | ⟨c, rest⟩
  · simp only [stripWrappingQuotesL, hv]
  · rw [hv] at h
    simp only [quoteWrapped] at h
    simp only [stripWrappingQuotesL, hv, h]
    simp

/-- C8, counterexample: the claim "stripping twice equals stripping once for
every string" fails at the doubly single-quoted letter x, which loses one
quote layer per application, so two applications differ from one. -/
theorem strip_quotes_not_idempotent :
    stripWrappingQuotes (stripWrappingQuotes nestedQuoted)
      ≠ stripWrappingQuotes nestedQuoted := by
  decide

/-- C8, amended: one application of `_strip_wrapping_quotes` fixes every
string that is free of surrounding whitespace and not wrapped in a matching
quote pair; stripping twice equals stripping once whenever the first
result is not itself quote-wrapped (nested identical quotes strip one layer
per application); buy milk wrapped in single or in double quotes resolves
to buy milk. -/
theorem strip_quotes_behaviour :
    (∀ v : List Char, pyStrip v = v → quoteWrapped v = false →
        stripWrappingQuotesL v = v) ∧
    (∀ v : List Char, quoteWrapped (stripWrappingQuotesL v) = false →
        stripWrappingQuotesL (stripWrappingQuotesL v) = stripWrappingQuotesL v) ∧
    stripWrappingQuotes singleQuotedMilk = "buy milk" ∧
    stripWrappingQuotes "\"buy milk\"" = "buy milk" := by
  refine ⟨?_, ?_, by decide, by decide⟩
  · intro v hstrip hwrap
    rw [stripWrappingQuotesL_of_not_wrapped v (by rw [hstrip]; exact hwrap), hstrip]
  · intro v hwrap
    obtain ⟨w, hw⟩ := stripWrappingQuotesL_eq_pyStrip v
    have hfix : pyStrip (stripWrappingQuotesL v) = stripWrappingQuotesL v := by
      rw [hw, pyStrip_idem]
    rw [stripWrappingQuotesL_of_not_wrapped _ (by rw [hfix]; exact hwrap), hfix]

/-- C8, witness: the amended theorem applied to the quote-free string `abc`
and, for the conditional idempotence clause, to `x`. -/
theorem strip_quotes_behaviour_witness :
    stripWrappingQuotesL "abc".toList = "abc".toList ∧
    stripWrappingQuotesL (stripWrappingQuotesL "x".toList)
      = stripWrappingQuotesL "x".toList :=
  ⟨strip_quotes_behaviour.1 _ (by decide) (by decide),
   strip_quotes_behaviour.2.1 _ (by decide)⟩

/-! ### Claims about the tool layer -/

/-- C2, counterexample: `add_task` called with an empty title on the empty
store does create a task record (with the empty title), so the store does
not stay unchanged. -/
theorem add_task_empty_title_creates :
    (add_task emptyStore "u" "" none).1.tasks
      = [⟨1, "u", "", none, false, 0, 0⟩] ∧
    (add_task emptyStore "u" "" none).2
      = .obj [("task_id", .nat 1), ("status", .str "created"),
              ("title", .str "")] :=
  ⟨rfl, rfl⟩

/-- C2, amended: for every owner, `add_task` with an empty title fails
softly in the sense that nothing is raised — the dispatch returns a
structured `created` result — but it does append a task record carrying the
empty title; only the fast-path matcher guards against empty titles. -/
theorem add_task_empty_title_soft (s : Store) (u : String) :
    execute_tool s u "add_task" [("title", JVal.str "")]
      = .ok (add_task s u "" none) ∧
    (add_task s u "" none).1.tasks.length = s.tasks.length + 1 ∧
    ((add_task s u "" none).1.tasks.getLast?).map Task.title = some "" ∧
    (add_task s u "" none).2
      = .obj [("task_id", .nat s.nextId), ("status", .str "created"),
              ("title", .str "")] := by
  refine ⟨rfl, by simp [add_task], ?_, rfl⟩
  simp [add_task]

/-- C3: when every task bearing the requested id belongs to someone other
than the caller, `complete_task`, `delete_task` and `update_task` all
return the not-found error dict — exactly the result for a wholly
nonexistent id — and leave the store (hence the record of the other owner)
unchanged. -/
theorem foreign_task_not_found (s : Store) (u : String) (tid : Nat)
    (hforeign : ∀ t ∈ s.tasks, t.id = tid → t.user_id ≠ u) :
    complete_task s u tid = (s, notFoundResult tid) ∧
    delete_task s u tid = (s, notFoundResult tid) ∧
    ∀ title description,
      update_task s u tid title description = (s, notFoundResult tid) := by
  have hfind : findTask s u tid = none := by
    rw [findTask, List.find?_eq_none]
    intro t ht
    simp only [Bool.and_eq_true, decide_eq_true_eq, not_and]
    intro hid hu
    exact hforeign t ht hid hu
  exact ⟨by simp [complete_task, hfind], by simp [delete_task, hfind],
         fun title description => by simp [update_task, hfind]⟩

/-- C3, witness: bob requesting task 1 of alice in the two-owner store. -/
theorem foreign_task_not_found_witness :
    complete_task twoOwnerStore "bob" 1 = (twoOwnerStore, notFoundResult 1) ∧
    delete_task twoOwnerStore "bob" 1 = (twoOwnerStore, notFoundResult 1) ∧
    update_task twoOwnerStore "bob" 1 (some "hacked") none
      = (twoOwnerStore, notFoundResult 1) := by
  have h := foreign_task_not_found twoOwnerStore "bob" 1 (by decide)
  exact ⟨h.1, h.2.1, h.2.2 (some "hacked") none⟩

/-- Replacing the first matching row, when the replacement still matches,
is found again by `find?`. -/
theorem find?_replaceFirst (p : Task → Bool) (f : Task → Task) :
    ∀ (l : List Task) (t0 : Task), l.find? p = some t0 → p (f t0) = true →
      (replaceFirst p f l).find? p = some (f t0) := by
  intro l
  induction l with
  | nil => intro t0 h; simp at h
  | cons a l ih =>
    intro t0 h hf
    by_cases hpa : p a = true
    · rw [List.find?_cons_of_pos _ hpa] at h
      cases h
      simp [replaceFirst, hpa, List.find?_cons_of_pos _ hf]
    · rw [List.find?_cons_of_neg _ hpa] at h
      have := ih t0 h hf
      simp [replaceFirst, hpa, List.find?_cons_of_neg, this]

/-- C9: updating an owned task leaves every omitted field unchanged (title
when no title is supplied, description when no description is supplied, the
completion flag always) and returns the `updated` dict carrying the id and
the current title. -/
theorem update_task_preserves_omitted (s : Store) (u : String) (tid : Nat)
    (t0 : Task) (hfind : findTask s u tid = some t0) :
    ∀ title description,
      ∃ t', findTask (update_task s u tid title description).1 u tid = some t' ∧
        t'.completed = t0.completed ∧
        (title = none → t'.title = t0.title) ∧
        (description = none → t'.description = t0.description) ∧
        (update_task s u tid title description).2
          = .obj [("task_id", .nat tid), ("status", .str "updated"),
                  ("title", .str t'.title)] := by
  intro title description
  have hfind' : List.find? (fun t => t.id = tid && t.user_id = u) s.tasks
      = some t0 := by simpa [findTask] using hfind
  have hp := List.find?_some hfind'
  simp only [Bool.and_eq_true, decide_eq_true_eq] at hp
  refine ⟨{ t0 with
            title := match title with | some t => t | none => t0.title,
            description := match description with
                           | some d => some d
                           | none => t0.description,
            updated_at := s.now }, ?_, rfl, ?_, ?_, ?_⟩
  · show findTask _ u tid = _
    unfold update_task
    rw [hfind]
    simp only [findTask]
    exact find?_replaceFirst _ _ s.tasks t0 hfind
      (by simp [hp.1, hp.2])
  · intro h; rw [h]
  · intro h; rw [h]
  · unfold update_task
    rw [hfind]
    simp [hp.1]

/-- C9, witness: updating task 2 of bob with both fields omitted. -/
theorem update_task_preserves_omitted_witness :
    ∃ t', findTask (update_task twoOwnerStore "bob" 2 none none).1 "bob" 2
        = some t' ∧
      t'.completed = false ∧
      (none = (none : Option String) → t'.title = "buy milk") ∧
      (none = (none : Option String) → t'.description = some "2 liters") ∧
      (update_task twoOwnerStore "bob" 2 none none).2
        = .obj [("task_id", .nat 2), ("status", .str "updated"),
                ("title", .str t'.title)] :=
  update_task_preserves_omitted twoOwnerStore "bob" 2
    ⟨2, "bob", "buy milk", some "2 liters", false, 1, 1⟩ rfl none none

/-! ### C6: `list_tasks` -/

theorem insertDesc_perm (t : Task) :
    ∀ l : List Task, (insertDesc t l).Perm (t :: l) := by
  intro l
  induction l with
  | nil => simp [insertDesc]
  | cons u us ih =>
    by_cases h : t.created_at ≤ u.created_at
    · simp only [insertDesc, if_pos h]
      exact (ih.cons u).trans (List.Perm.swap t u us)
    · simp [insertDesc, if_neg h]

theorem insertDesc_sorted (t : Task) :
    ∀ l : List Task,
      l.Pairwise (fun a b => b.created_at ≤ a.created_at) →
      (insertDesc t l).Pairwise (fun a b => b.created_at ≤ a.created_at) := by
  intro l
  induction l with
  | nil => intro _; simp [insertDesc]
  | cons u us ih =>
    intro hsort
    rw [List.pairwise_cons] at hsort
    by_cases h : t.created_at ≤ u.created_at
    · simp only [insertDesc, if_pos h]
      rw [List.pairwise_cons]
      refine ⟨?_, ih hsort.2⟩
      intro x hx
      have hx' := (insertDesc_perm t us).mem_iff.mp hx
      rcases List.mem_cons.mp hx' with rfl | hx'
      · exact h
      · exact hsort.1 x hx'
    · simp only [insertDesc, if_neg h]
      rw [List.pairwise_cons]
      refine ⟨?_, List.pairwise_cons.mpr hsort⟩
      intro x hx
      rcases List.mem_cons.mp hx with rfl | hx'
      · omega
      · exact le_trans (hsort.1 x hx') (by omega)

theorem sortByCreatedDesc_perm :
    ∀ l : List Task, (sortByCreatedDesc l).Perm l := by
  intro l
  induction l with
  | nil => simp [sortByCreatedDesc]
  | cons t ts ih =>
    exact (insertDesc_perm t (sortByCreatedDesc ts)).trans (ih.cons t)

theorem sortByCreatedDesc_sorted :
    ∀ l : List Task,
      (sortByCreatedDesc l).Pairwise (fun a b => b.created_at ≤ a.created_at) := by
  intro l
  induction l with
  | nil => simp [sortByCreatedDesc]
  | cons t ts ih => exact insertDesc_sorted t _ ih

/-- C6: for every owner and status filter, the rows underlying `list_tasks`
are exactly the tasks of the owner matching the filter (pending = not completed,
completed = completed, anything else = every task), ordered
most-recently-created first, and the returned value renders exactly those
rows. -/
theorem list_tasks_spec (s : Store) (u : String) (status : String) :
    (list_tasksRows s u status).Perm
      (s.tasks.filter (fun t => t.user_id = u && matchesStatus status t)) ∧
    (list_tasksRows s u status).Pairwise
      (fun a b => b.created_at ≤ a.created_at) ∧
    list_tasks s u status = .arr ((list_tasksRows s u status).map taskSummary) ∧
    (∀ t : Task, matchesStatus "pending" t = !t.completed) ∧
    (∀ t : Task, matchesStatus "completed" t = t.completed) ∧
    (∀ t : Task, matchesStatus "all" t = true) := by
  refine ⟨sortByCreatedDesc_perm _, sortByCreatedDesc_sorted _, rfl, ?_, ?_, ?_⟩
  · intro t; cases hb : t.completed <;> simp [matchesStatus, hb]
  · intro t; cases hb : t.completed <;> simp [matchesStatus, hb]
  · intro t; simp [matchesStatus]

/-! ### C10: keyword collisions and owner scoping -/

theorem count_replaceFirst (p : Task → Bool) (f : Task → Task) (t : Task) :
    ∀ l : List Task, (∀ x, p x = true → x ≠ t ∧ f x ≠ t) →
      (replaceFirst p f l).count t = l.count t := by
  intro l h
  induction l with
  | nil => rfl
  | cons a l ih =>
    by_cases hpa : p a = true
    · simp only [replaceFirst, if_pos hpa]
      rw [List.count_cons, List.count_cons]
      simp [(h a hpa).1, (h a hpa).2]
    · simp only [replaceFirst, if_neg hpa]
      rw [List.count_cons, List.count_cons, ih]

theorem count_eraseFirst (p : Task → Bool) (t : Task) :
    ∀ l : List Task, (∀ x, p x = true → x ≠ t) →
      (eraseFirst p l).count t = l.count t := by
  intro l h
  induction l with
  | nil => rfl
  | cons a l ih =>
    by_cases hpa : p a = true
    · simp only [eraseFirst, if_pos hpa]
      rw [List.count_cons]
      simp [h a hpa]
    · simp only [eraseFirst, if_neg hpa]
      rw [List.count_cons, List.count_cons, ih]

theorem add_task_count (s : Store) (u title : String) (d : Option String)
    (t : Task) (ht : t.user_id ≠ u) :
    (add_task s u title d).1.tasks.count t = s.tasks.count t := by
  have hne : ({ id := s.nextId, user_id := u, title := title,
                description := d, completed := false, created_at := s.now,
                updated_at := s.now } : Task) ≠ t := by
    intro he
    apply ht
    rw [← he]
  simp [add_task, List.count_append, List.count_cons, beq_iff_eq, hne]

theorem complete_task_count (s : Store) (u : String) (tid : Nat)
    (t : Task) (ht : t.user_id ≠ u) :
    (complete_task s u tid).1.tasks.count t = s.tasks.count t := by
  rcases hfind : findTask s u tid with _ | task
  · simp [complete_task, hfind]
  · have hp := List.find?_some (show List.find? _ s.tasks = some task from hfind)
    simp only [Bool.and_eq_true, decide_eq_true_eq] at hp
    simp only [complete_task, hfind]
    apply count_replaceFirst
    intro x hx
    simp only [Bool.and_eq_true, decide_eq_true_eq] at hx
    exact ⟨fun he => ht (he ▸ hx.2), fun he => ht (he ▸ hp.2)⟩

theorem delete_task_count (s : Store) (u : String) (tid : Nat)
    (t : Task) (ht : t.user_id ≠ u) :
    (delete_task s u tid).1.tasks.count t = s.tasks.count t := by
  rcases hfind : findTask s u tid with _ | task
  · simp [delete_task, hfind]
  · simp only [delete_task, hfind]
    apply count_eraseFirst
    intro x hx
    simp only [Bool.and_eq_true, decide_eq_true_eq] at hx
    exact fun he => ht (he ▸ hx.2)

theorem update_task_count (s : Store) (u : String) (tid : Nat)
    (title d : Option String) (t : Task) (ht : t.user_id ≠ u) :
    (update_task s u tid title d).1.tasks.count t = s.tasks.count t := by
  rcases hfind : findTask s u tid with _ | task
  · simp [update_task, hfind]
  · have hp := List.find?_some (show List.find? _ s.tasks = some task from hfind)
    simp only [Bool.and_eq_true, decide_eq_true_eq] at hp
    simp only [update_task, hfind]
    apply count_replaceFirst
    intro x hx
    simp only [Bool.and_eq_true, decide_eq_true_eq] at hx
    exact ⟨fun he => ht (he ▸ hx.2), fun he => ht (he ▸ hp.2)⟩

/-- C10: for every known tool, an argument mapping containing the key
`user_id` (or `session`) makes `execute_tool` raise the duplicate-keyword
`TypeError` instead of executing the tool; and every execution that does
succeed preserves, occurrence for occurrence, all tasks of every owner
other than the authenticated user of the session — so no model-supplied argument
ever redirects a tool to the data of another owner. -/
theorem execute_tool_owner_scoped :
    (∀ (s : Store) (u name : String) (args : List (String × JVal)),
      name ∈ knownTools →
      ("user_id" ∈ argKeys args ∨ "session" ∈ argKeys args) →
      execute_tool s u name args
        = .error "TypeError: got multiple values for a keyword argument") ∧
    (∀ (s : Store) (u name : String) (args : List (String × JVal))
        (s' : Store) (res : JVal),
      execute_tool s u name args = .ok (s', res) →
      ∀ t : Task, t.user_id ≠ u → s'.tasks.count t = s.tasks.count t) := by
  constructor
  · intro s u name args hmem hkey
    have hbind : ∀ allowed required,
        bindError args allowed required
          = some "TypeError: got multiple values for a keyword argument" := by
      intro allowed required
      rcases hkey with hk | hk <;> simp [bindError, hk]
    simp only [knownTools, List.mem_cons, List.mem_singleton] at hmem
    rcases hmem with rfl | rfl | rfl | rfl | rfl | h <;>
      simp_all [execute_tool, knownTools, hbind]
  · intro s u name args s' res h t ht
    have hok : ∀ (p : Store × JVal),
        (Except.ok p : Except String (Store × JVal)) = Except.ok (s', res) →
        p.1.tasks.count t = s.tasks.count t →
        s'.tasks.count t = s.tasks.count t := by
      intro p he hc
      injection he with he'
      rw [he'] at hc
      simpa using hc
    unfold execute_tool at h
    repeat' split at h
    all_goals try exact Except.noConfusion h
    all_goals
      first
        | exact hok _ h rfl
        | exact hok _ h (add_task_count s u _ _ t ht)
        | exact hok _ h (complete_task_count s u _ t ht)
        | exact hok _ h (delete_task_count s u _ t ht)
        | exact hok _ h (update_task_count s u _ _ _ t ht)

/-- C10, witness: a model-supplied `user_id` key on `add_task` raises, and
a successful `add_task` by bob leaves the task of alice untouched in the
two-owner store. -/
theorem execute_tool_owner_scoped_witness :
    execute_tool twoOwnerStore "bob" "add_task"
        [("user_id", .str "alice"), ("title", .str "hacked")]
      = .error "TypeError: got multiple values for a keyword argument" ∧
    (add_task twoOwnerStore "bob" "new" none).1.tasks.count
        ⟨1, "alice", "write report", none, false, 0, 0⟩
      = twoOwnerStore.tasks.count
        ⟨1, "alice", "write report", none, false, 0, 0⟩ := by
  constructor
  · exact execute_tool_owner_scoped.1 twoOwnerStore "bob" "add_task"
      [("user_id", .str "alice"), ("title", .str "hacked")]
      (by decide) (by simp [argKeys])
  · exact execute_tool_owner_scoped.2 twoOwnerStore "bob" "add_task"
      [("title", .str "new")] _ _ rfl _ (by decide)

/-! ### C1: malformed tool-call arguments -/

/-- C1, counterexample: with the empty argument mapping substituted for
malformed arguments, `add_task` does not return a structured result — the
missing required `title` raises a `TypeError`, and a run whose model
requests such a call aborts with that error instead of continuing. -/
theorem empty_arguments_can_raise :
    execute_tool emptyStore "u" "add_task" []
      = .error "TypeError: missing a required argument" ∧
    runAgent "u" helloHistory emptyStore oracleMalformedAdd
      = .error "TypeError: missing a required argument" :=
  ⟨rfl, rfl⟩

/-- C1, amended: the orchestrator substitutes the empty mapping for
unparseable arguments, and the turn survives only for `list_tasks` (whose
parameters are all optional): such a call executes, appends its audit entry
and tool message, and the round continues; for the four tools with a
required parameter the empty mapping raises a missing-argument `TypeError`
which propagates and aborts the turn. -/
theorem malformed_arguments_substituted (s : Store) (u : String)
    (audit : List AuditEntry) (msgs : List OMsg) (tc : ToolCallReq)
    (hname : tc.name = "list_tasks") (hraw : tc.argumentsRaw = none) :
    execCalls u [tc] s audit msgs
      = .ok (s, audit ++ [⟨"list_tasks", [], list_tasks s u "all"⟩],
             msgs ++ [OMsg.toolMsg tc.id (list_tasks s u "all")]) ∧
    execute_tool s u "list_tasks" [] = .ok (s, list_tasks s u "all") ∧
    (∃ e, execute_tool s u "add_task" [] = .error e) ∧
    (∃ e, execute_tool s u "complete_task" [] = .error e) ∧
    (∃ e, execute_tool s u "delete_task" [] = .error e) ∧
    (∃ e, execute_tool s u "update_task" [] = .error e) := by
  refine ⟨?_, rfl, ⟨_, rfl⟩, ⟨_, rfl⟩, ⟨_, rfl⟩, ⟨_, rfl⟩⟩
  have hlt : execute_tool s u "list_tasks" [] = .ok (s, list_tasks s u "all") := rfl
  simp [execCalls, hname, hraw, hlt]

/-- C1, witness: a malformed `list_tasks` call on the empty store executes
with the empty mapping and the loop round continues. -/
theorem malformed_arguments_substituted_witness :
    execCalls "u" [⟨"call0", "list_tasks", none⟩] emptyStore [] []
      = .ok (emptyStore,
             [⟨"list_tasks", [], list_tasks emptyStore "u" "all"⟩],
             [OMsg.toolMsg "call0" (list_tasks emptyStore "u" "all")]) :=
  (malformed_arguments_substituted emptyStore "u" [] []
    ⟨"call0", "list_tasks", none⟩ rfl rfl).1

/-! ### C7: fast-path listing rendering -/

theorem listResponseText_spec (items : List JVal) :
    (items = [] → listResponseText items = noTasksText) ∧
    (items.length > 10 →
      listResponseText items
        = "Here are your tasks:\n" ++ String.intercalate "\n"
            ((items.take 10).map renderItemLine
              ++ ["...and " ++ toString (items.length - 10) ++ " more."])) ∧
    (items ≠ [] → items.length ≤ 10 →
      listResponseText items
        = "Here are your tasks:\n" ++ String.intercalate "\n"
            (items.map renderItemLine)) := by
  refine ⟨?_, ?_, ?_⟩
  · rintro rfl; rfl
  · intro hlen
    have hne : items.isEmpty = false := by
      cases items
      · simp at hlen
      · rfl
    simp only [listResponseText, hne, Bool.false_eq_true, if_false, if_pos hlen]
    rfl
  · intro hne10 hlen
    have hne : items.isEmpty = false := by
      cases items
      · exact absurd rfl hne10
      · rfl
    have hgt : ¬ items.length > 10 := by omega
    simp only [listResponseText, hne, Bool.false_eq_true, if_false, if_neg hgt,
               List.take_of_length_le hlen]

/-- C7: when the fast path executes `list_tasks`, the response text renders
the empty-result sentence on no matches; with more than 10 matching rows
exactly the first 10 are rendered followed by the `...and N more.` line
with `N = count − 10`; with at most 10 rows all are rendered with no
truncation note; and each rendered line is `Todo/Done #id: title`. -/
theorem fast_path_listing (s : Store) (u status : String) (out : FPOut)
    (h : runToolFast s u "list_tasks" [("status", JVal.str status)] = .ok out) :
    (list_tasksRows s u status = [] → out.text = noTasksText) ∧
    ((list_tasksRows s u status).length > 10 →
      out.text = "Here are your tasks:\n" ++ String.intercalate "\n"
        (((list_tasksRows s u status).take 10).map
            (fun t => renderItemLine (taskSummary t))
          ++ ["...and " ++ toString ((list_tasksRows s u status).length - 10)
              ++ " more."])) ∧
    (list_tasksRows s u status ≠ [] → (list_tasksRows s u status).length ≤ 10 →
      out.text = "Here are your tasks:\n" ++ String.intercalate "\n"
        ((list_tasksRows s u status).map
          (fun t => renderItemLine (taskSummary t)))) ∧
    (∀ t : Task, renderItemLine (taskSummary t)
      = (if t.completed then "Done" else "Todo") ++ " #" ++ toString t.id
        ++ ": " ++ t.title) := by
  have hrun : runToolFast s u "list_tasks" [("status", JVal.str status)]
      = .ok ⟨listResponseText ((list_tasksRows s u status).map taskSummary),
             [⟨"list_tasks", [("status", JVal.str status)],
               list_tasks s u status⟩], s⟩ := rfl
  rw [hrun] at h
  injection h with h'
  subst h'
  obtain ⟨h1, h2, h3⟩ :=
    listResponseText_spec ((list_tasksRows s u status).map taskSummary)
  refine ⟨?_, ?_, ?_, ?_⟩
  · intro hrows
    have := h1 (by rw [hrows]; rfl)
    simpa using this
  · intro hlen
    have := h2 (by simpa using hlen)
    simpa [List.map_take, List.map_map] using this
  · intro hrow hlen
    have := h3 (by simpa using hrow) (by simpa using hlen)
    simpa [List.map_map] using this
  · intro t
    show ((if t.completed then "Done" else "Todo") ++ " #" ++ toString t.id
        ++ ": " ++ t.title) ++ "" = _
    exact String.append_empty _

/-- C7, witness: listing the twelve-task store renders the first ten lines
plus `...and 2 more.`. -/
theorem fast_path_listing_witness :
    (runToolFast twelveTaskStore "u" "list_tasks"
        [("status", JVal.str "all")]).map FPOut.text
      = .ok ("Here are your tasks:\n" ++ String.intercalate "\n"
          (((list_tasksRows twelveTaskStore "u" "all").take 10).map
              (fun t => renderItemLine (taskSummary t))
            ++ ["...and "
                ++ toString ((list_tasksRows twelveTaskStore "u" "all").length - 10)
                ++ " more."])) := by
  obtain ⟨out, hrun, htext⟩ :
      ∃ out, runToolFast twelveTaskStore "u" "list_tasks"
          [("status", JVal.str "all")] = .ok out ∧
        out.text = "Here are your tasks:\n" ++ String.intercalate "\n"
          (((list_tasksRows twelveTaskStore "u" "all").take 10).map
              (fun t => renderItemLine (taskSummary t))
            ++ ["...and "
                ++ toString ((list_tasksRows twelveTaskStore "u" "all").length - 10)
                ++ " more."]) :=
    ⟨_, rfl, (fast_path_listing twelveTaskStore "u" "all" _ rfl).2.1 (by decide)⟩
  simp [hrun, Except.map, htext]

/-! ### Lemmas about the agent loop -/

theorem execCalls_ok (u : String) :
    ∀ (calls : List ToolCallReq) (s : Store) (audit : List AuditEntry)
      (msgs : List OMsg) (s' : Store) (audit' : List AuditEntry)
      (msgs' : List OMsg),
      execCalls u calls s audit msgs = .ok (s', audit', msgs') →
      audit'.map (fun e => (e.name, e.arguments))
        = audit.map (fun e => (e.name, e.arguments))
          ++ calls.map (fun tc => (tc.name, tc.argumentsRaw.getD [])) := by
  intro calls
  induction calls with
  | nil =>
    intro s audit msgs s' audit' msgs' h
    simp only [execCalls, Except.ok.injEq, Prod.mk.injEq] at h
    obtain ⟨rfl, rfl, rfl⟩ := h
    simp
  | cons tc rest ih =>
    intro s audit msgs s' audit' msgs' h
    simp only [execCalls] at h
    rcases hex : execute_tool s u tc.name (tc.argumentsRaw.getD [])
      with e | ⟨s1, result⟩ <;> rw [hex] at h
    · exact Except.noConfusion h
    · rw [ih _ _ _ _ _ _ h]
      simp

theorem agentLoop_ok (u : String) (o : Nat → ModelResponse) :
    ∀ (fuel round : Nat) (msgs : List OMsg) (audit : List AuditEntry)
      (s : Store) (res : RunResult),
      agentLoop u o fuel round msgs audit s = .ok res →
      round ≤ res.rounds ∧ res.rounds ≤ round + fuel ∧
      res.audit.map (fun e => (e.name, e.arguments))
        = audit.map (fun e => (e.name, e.arguments))
          ++ (List.range' round (res.rounds - round)).flatMap
              (fun i => (o i).tool_calls.map
                (fun tc => (tc.name, tc.argumentsRaw.getD []))) := by
  intro fuel
  induction fuel with
  | zero =>
    intro round msgs audit s res h
    simp only [agentLoop] at h
    injection h with h'
    subst h'
    simp
  | succ fuel ih =>
    intro round msgs audit s res h
    simp only [agentLoop] at h
    by_cases hc : (o round).tool_calls.isEmpty
    · rw [if_pos hc] at h
      injection h with h'
      subst h'
      refine ⟨by simp, by simp, ?_⟩
      have hone : round + 1 - round = 1 := by omega
      have hnil : (o round).tool_calls = [] := List.isEmpty_iff.mp hc
      show _ = _ ++ (List.range' round (round + 1 - round)).flatMap _
      rw [hone, List.range'_succ]
      simp [hnil]
    · rw [if_neg hc] at h
      rcases hexec : execCalls u (o round).tool_calls s audit
          (msgs ++ [OMsg.assistantCalls (o round).content (o round).tool_calls])
        with e | ⟨s1, a1, m1⟩ <;> rw [hexec] at h
      · exact Except.noConfusion h
      · obtain ⟨h1, h2, h3⟩ := ih (round + 1) m1 a1 s1 res h
        refine ⟨by omega, by omega, ?_⟩
        have hk : res.rounds - round = (res.rounds - (round + 1)) + 1 := by omega
        rw [h3, execCalls_ok u _ _ _ _ _ _ _ hexec, hk, List.range'_succ]
        simp

theorem agentLoop_congr (u : String) (o o' : Nat → ModelResponse) :
    ∀ (fuel round : Nat) (msgs : List OMsg) (audit : List AuditEntry)
      (s : Store),
      (∀ i, round ≤ i → i < round + fuel → o i = o' i) →
      agentLoop u o fuel round msgs audit s
        = agentLoop u o' fuel round msgs audit s := by
  intro fuel
  induction fuel with
  | zero => intro round msgs audit s _; rfl
  | succ fuel ih =>
    intro round msgs audit s h
    have h0 : o round = o' round := h round (le_refl _) (by omega)
    simp only [agentLoop, ← h0]
    by_cases hc : (o round).tool_calls.isEmpty
    · rw [if_pos hc, if_pos hc]
    · rw [if_neg hc, if_neg hc]
      rcases hexec : execCalls u (o round).tool_calls s audit
          (msgs ++ [OMsg.assistantCalls (o round).content (o round).tool_calls])
        with e | ⟨s1, a1, m1⟩
      · rfl
      · exact ih (round + 1) m1 a1 s1 (fun i hi1 hi2 => h i (by omega) (by omega))

theorem agentLoop_exhaust (u : String) (o : Nat → ModelResponse) :
    ∀ (fuel round : Nat) (msgs : List OMsg) (audit : List AuditEntry)
      (s : Store) (res : RunResult),
      (∀ i, round ≤ i → i < round + fuel → (o i).tool_calls ≠ []) →
      agentLoop u o fuel round msgs audit s = .ok res →
      res.text = maxIterationsText ∧ res.rounds = round + fuel := by
  intro fuel
  induction fuel with
  | zero =>
    intro round msgs audit s res _ h
    simp only [agentLoop] at h
    injection h with h'
    subst h'
    exact ⟨rfl, by simp⟩
  | succ fuel ih =>
    intro round msgs audit s res hall h
    simp only [agentLoop] at h
    have hc : (o round).tool_calls.isEmpty = false := by
      have hne := hall round (le_refl _) (by omega)
      cases hcc : (o round).tool_calls
      · exact absurd hcc hne
      · rfl
    rw [hc] at h
    simp only [Bool.false_eq_true, if_false] at h
    rcases hexec : execCalls u (o round).tool_calls s audit
        (msgs ++ [OMsg.assistantCalls (o round).content (o round).tool_calls])
      with e | ⟨s1, a1, m1⟩ <;> rw [hexec] at h
    · exact Except.noConfusion h
    · have := ih (round + 1) m1 a1 s1 res
        (fun i h1 h2 => hall i (by omega) (by omega)) h
      exact ⟨this.1, by omega⟩

theorem map_some_ok (x : Except String FPOut) (out : FPOut)
    (h : x.map some = .ok (some out)) : x = .ok out := by
  rcases x with e | v
  · simp [Except.map] at h
  · simp only [Except.map] at h
    injection h with h'
    injection h' with h''
    rw [h'']

theorem runToolFast_ok (s : Store) (u n : String) (a : List (String × JVal))
    (out : FPOut) (h : runToolFast s u n a = .ok out) :
    ∃ r, out.audit = [⟨n, a, r⟩] ∧ execute_tool s u n a = .ok (out.store, r) := by
  unfold runToolFast at h
  rcases hex : execute_tool s u n a with e | ⟨s', result⟩ <;> rw [hex] at h
  · exact Except.noConfusion h
  · injection h with h'
    subst h'
    exact ⟨result, rfl, rfl⟩

theorem fpAfterAdd_some (u : String) (text lower : List Char) (s : Store)
    (out : FPOut) (h : fpAfterAdd u text lower s = .ok (some out)) :
    ∃ n a, runToolFast s u n a = .ok out := by
  unfold fpAfterAdd at h
  dsimp only [] at h
  repeat' split at h
  all_goals
    first
      | exact ⟨_, _, map_some_ok _ _ h⟩
      | exact Option.noConfusion (Except.ok.inj h)

theorem fastPath_some (u : String) (ms : List Msg) (s : Store) (out : FPOut)
    (h : fastPathCommand u ms s = .ok (some out)) :
    ∃ n a, runToolFast s u n a = .ok out := by
  unfold fastPathCommand at h
  dsimp only [] at h
  repeat' split at h
  all_goals
    first
      | exact ⟨_, _, map_some_ok _ _ h⟩
      | exact Option.noConfusion (Except.ok.inj h)
      | exact fpAfterAdd_some _ _ _ _ _ h

/-- C4: the agent loop consults the model at most `MAX_TOOL_ITERATIONS = 4`
times; the outcome of a run depends only on the first four oracle replies
(a fifth request never occurs); and when the model requests tool calls in
all four rounds a non-fast-path run ends with the generic completion
acknowledgment after exactly four consultations, carrying the accumulated
audit trail. -/
theorem agent_loop_bounded :
    (∀ (u : String) (ms : List Msg) (s : Store) (o : Nat → ModelResponse)
        (res : RunResult),
      runAgent u ms s o = .ok res → res.rounds ≤ MAX_TOOL_ITERATIONS) ∧
    (∀ (u : String) (ms : List Msg) (s : Store) (o o' : Nat → ModelResponse),
      (∀ i, i < MAX_TOOL_ITERATIONS → o i = o' i) →
      runAgent u ms s o = runAgent u ms s o') ∧
    (∀ (u : String) (ms : List Msg) (s : Store) (o : Nat → ModelResponse)
        (res : RunResult),
      runAgent u ms s o = .ok res →
      (∀ i, i < MAX_TOOL_ITERATIONS → (o i).tool_calls ≠ []) →
      fastPathCommand u ms s = .ok none →
      res.text = maxIterationsText ∧ res.rounds = MAX_TOOL_ITERATIONS) := by
  refine ⟨?_, ?_, ?_⟩
  · intro u ms s o res h
    rcases hfp : fastPathCommand u ms s with e | (_ | out) <;>
      simp only [runAgent, hfp] at h
    · exact Except.noConfusion h
    · simpa using (agentLoop_ok u o MAX_TOOL_ITERATIONS 0 _ _ _ _ h).2.1
    · injection h with h'
      subst h'
      simp [MAX_TOOL_ITERATIONS]
  · intro u ms s o o' hag
    rcases hfp : fastPathCommand u ms s with e | (_ | out) <;>
      simp only [runAgent, hfp]
    exact agentLoop_congr u o o' MAX_TOOL_ITERATIONS 0 _ _ _
      (fun i _ h2 => hag i (by simpa using h2))
  · intro u ms s o res h hcalls hfp
    simp only [runAgent, hfp] at h
    have := agentLoop_exhaust u o MAX_TOOL_ITERATIONS 0 _ _ _ _
      (fun i _ h2 => hcalls i (by simpa using h2)) h
    exact ⟨this.1, by simpa using this.2⟩

/-- C4, witness: with no fast-path match and an oracle that requests one
tool call every round, the run ends after exactly four consultations with
the generic acknowledgment; and the outcome is oblivious to the oracle
behavior from round four on. -/
theorem agent_loop_bounded_witness :
    RunResult.rounds ⟨maxIterationsText, fourListCallsAudit, emptyStore, 4⟩
      ≤ MAX_TOOL_ITERATIONS ∧
    runAgent "u" helloHistory emptyStore oracleAlwaysCalls
      = runAgent "u" helloHistory emptyStore oracleDivergentLate ∧
    (RunResult.text ⟨maxIterationsText, fourListCallsAudit, emptyStore, 4⟩
        = maxIterationsText ∧
     RunResult.rounds ⟨maxIterationsText, fourListCallsAudit, emptyStore, 4⟩
        = MAX_TOOL_ITERATIONS) := by
  refine ⟨?_, ?_, ?_⟩
  · exact agent_loop_bounded.1 "u" helloHistory emptyStore oracleAlwaysCalls
      ⟨maxIterationsText, fourListCallsAudit, emptyStore, 4⟩ rfl
  · exact agent_loop_bounded.2.1 "u" helloHistory emptyStore
      oracleAlwaysCalls oracleDivergentLate
      (fun i hi => by simp [oracleDivergentLate, hi])
  · exact agent_loop_bounded.2.2 "u" helloHistory emptyStore oracleAlwaysCalls
      ⟨maxIterationsText, fourListCallsAudit, emptyStore, 4⟩ rfl
      (fun i _ => by simp [oracleAlwaysCalls]) rfl

/-- C5: a successful fast-path match returns an audit trail of exactly one
entry, and that entry records the name and arguments of the one tool
execution together with its result; the audit trail of a loop run lists, in
order, exactly one `(name, arguments)` entry per tool call the model
requested over the consulted rounds — request order is execution order. -/
theorem audit_trail_ordered :
    (∀ (u : String) (ms : List Msg) (s : Store) (out : FPOut),
      fastPathCommand u ms s = .ok (some out) →
      out.audit.length = 1 ∧
      ∃ n a r, out.audit = [⟨n, a, r⟩]
        ∧ execute_tool s u n a = .ok (out.store, r)) ∧
    (∀ (u : String) (ms : List Msg) (s : Store) (o : Nat → ModelResponse)
        (res : RunResult),
      runAgent u ms s o = .ok res → fastPathCommand u ms s = .ok none →
      res.audit.map (fun e => (e.name, e.arguments))
        = flatRequests o res.rounds) := by
  constructor
  · intro u ms s out h
    obtain ⟨n, a, hrt⟩ := fastPath_some u ms s out h
    obtain ⟨r, ha, hex⟩ := runToolFast_ok s u n a out hrt
    exact ⟨by rw [ha]; rfl, n, a, r, ha, hex⟩
  · intro u ms s o res h hfp
    simp only [runAgent, hfp] at h
    have h3 := (agentLoop_ok u o MAX_TOOL_ITERATIONS 0 _ _ _ _ h).2.2
    rw [flatRequests, List.range_eq_range']
    simpa using h3

/-- C5, witness: the fast-path `add task buy milk` run yields a one-entry
trail, and the trail of a full four-round loop run lists the four requested
calls in order. -/
theorem audit_trail_ordered_witness :
    (fastPathCommand "u" [⟨"user", "add task buy milk"⟩] emptyStore).map
        (Option.map (fun out => out.audit.length))
      = .ok (some 1) ∧
    runAgent "u" helloHistory emptyStore oracleAlwaysCalls
      = .ok ⟨maxIterationsText, fourListCallsAudit, emptyStore, 4⟩ ∧
    fourListCallsAudit.map (fun e => (e.name, e.arguments))
      = flatRequests oracleAlwaysCalls 4 := by
  refine ⟨?_, rfl, ?_⟩
  · obtain ⟨out, hout⟩ : ∃ out, fastPathCommand "u"
        [⟨"user", "add task buy milk"⟩] emptyStore = .ok (some out) := ⟨_, rfl⟩
    have h1 := (audit_trail_ordered.1 _ _ _ _ hout).1
    simp [hout, Except.map, h1]
  · exact audit_trail_ordered.2 "u" helloHistory emptyStore oracleAlwaysCalls
      ⟨maxIterationsText, fourListCallsAudit, emptyStore, 4⟩ rfl rfl

end TodoApp
